import Mathlib

/-!
# Verification of the Online Quiz Application API data service

A shallow embedding of the in-memory `QuizService` from `server.js`.
The JavaScript service keeps two global arrays (`quizzes`, `questions`)
and mutates them; here the two collections form an explicit `ServiceState`
threaded through each operation.  JavaScript `throw new Error(msg)` is
modelled as `Except.error msg`: the code uses a single error class and
distinguishes failures only by message.  The uuidv4 id generator is
modelled by passing the generated id as an explicit argument.
-/

namespace QuizApp

/-- An option of a multiple-choice question: `{id, text}` pairs as stored
in `Question.options`. -/
structure Opt where
  id : String
  text : String
deriving DecidableEq, Repr

/-- The `Question` class of `server.js`: constructor stores
`id, quizId, text, options, correctOptionId` verbatim. -/
structure Question where
  id : String
  quizId : String
  text : String
  options : List Opt
  correctOptionId : String
deriving DecidableEq, Repr

/-- The `Quiz` class of `server.js`: constructor stores `id`, `title` and
an initially empty array `questions` of question ids. -/
structure Quiz where
  id : String
  title : String
  questions : List String
deriving DecidableEq, Repr

/-- The process-wide mutable state: the two global arrays
`let quizzes = []` and `let questions = []`. -/
structure ServiceState where
  quizzes : List Quiz
  questions : List Question
deriving DecidableEq, Repr

/-- The empty initial state of the process. -/
def initialState : ServiceState := ⟨[], []⟩

/-- A submitted answer `{questionId, selectedOptionId}`. -/
structure Answer where
  questionId : String
  selectedOptionId : String
deriving DecidableEq, Repr

/-- The `{score, total}` object returned by `submitAnswers`. -/
structure SubmitResult where
  score : Nat
  total : Nat
deriving DecidableEq, Repr

/-- The `{id, text, options}` projection returned by `getQuestions`.
It has no `correctOptionId` field. -/
structure QuestionProjection where
  id : String
  text : String
  options : List Opt
deriving DecidableEq, Repr

/-- The `{id, title}` projection returned by `getAllQuizzes`. -/
structure QuizProjection where
  id : String
  title : String
deriving DecidableEq, Repr

/-- `QuizService.createQuiz(title)`: builds a quiz with a generated id and
an empty question list and pushes it onto the quiz collection.  The
uuidv4-generated id is the explicit argument `id`. -/
def createQuiz (s : ServiceState) (id title : String) : Quiz × ServiceState :=
  let quiz : Quiz := ⟨id, title, []⟩
  (quiz, ⟨s.quizzes ++ [quiz], s.questions⟩)

/-- `QuizService.getAllQuizzes()`: maps the quiz collection to
`{id, title}` projections. -/
def getAllQuizzes (s : ServiceState) : List QuizProjection :=
  s.quizzes.map (fun q => ⟨q.id, q.title⟩)

/-- `quiz.questions.push(id)` on the object returned by
`quizzes.find(q => q.id === quizId)`: the first quiz whose id matches gets
the question id appended; the rest of the array is untouched. -/
def pushQuestionId : List Quiz → String → String → List Quiz
  | [], _, _ => []
  | q :: rest, quizId, qid =>
    if q.id == quizId then { q with questions := q.questions ++ [qid] } :: rest
    else q :: pushQuestionId rest quizId qid

/-- `QuizService.addQuestion(quizId, text, options, correctOptionId)`:
looks up the quiz (`throw 'Quiz not found'` if absent), checks that
`correctOptionId` matches some option id (`throw 'Invalid correct option ID'`
otherwise), then pushes a new `Question` onto the question collection and
its id onto the quiz's `questions` array.  The uuidv4-generated question id
is the explicit argument `newId`; a thrown error leaves the state as it
was. -/
def addQuestion (s : ServiceState) (quizId text : String) (options : List Opt)
    (correctOptionId newId : String) : Except String Question × ServiceState :=
  match s.quizzes.find? (fun q => q.id == quizId) with
  | none => (.error "Quiz not found", s)
  | some _ =>
    match options.find? (fun opt => opt.id == correctOptionId) with
    | none => (.error "Invalid correct option ID", s)
    | some _ =>
      let question : Question := ⟨newId, quizId, text, options, correctOptionId⟩
      (.ok question,
        ⟨pushQuestionId s.quizzes quizId newId, s.questions ++ [question]⟩)

/-- `QuizService.getQuestions(quizId)`: `throw 'Quiz not found'` if no quiz
has the id, else filter the global question collection by `quizId` and
project each question to `{id, text, options}` (no `correctOptionId`).
The operation reads the state and never writes it. -/
def getQuestions (s : ServiceState) (quizId : String) :
    Except String (List QuestionProjection) :=
  match s.quizzes.find? (fun q => q.id == quizId) with
  | none => .error "Quiz not found"
  | some _ =>
    .ok ((s.questions.filter (fun q => q.quizId == quizId)).map
      (fun q => ⟨q.id, q.text, q.options⟩))

/-- The body of the `answers.forEach` callback's condition in
`submitAnswers`: look the answer's `questionId` up among this quiz's
questions with `find`; the answer scores iff a question is found and its
`correctOptionId` equals the `selectedOptionId`. -/
def answerCorrect (quizQuestions : List Question) (a : Answer) : Bool :=
  match quizQuestions.find? (fun q => q.id == a.questionId) with
  | some question => question.correctOptionId == a.selectedOptionId
  | none => false

/-- `QuizService.submitAnswers(quizId, answers)`: `throw 'Quiz not found'`
if the quiz is absent; let `total` be the number of questions whose
`quizId` matches; `throw 'Answers must cover all questions'` when
`answers.length !== total`; otherwise fold over the answers incrementing
`score` exactly when `answerCorrect` holds, and return `{score, total}`.
The second component is the (unchanged) global state after the call. -/
def submitAnswers (s : ServiceState) (quizId : String) (answers : List Answer) :
    Except String SubmitResult × ServiceState :=
  match s.quizzes.find? (fun q => q.id == quizId) with
  | none => (.error "Quiz not found", s)
  | some _ =>
    let quizQuestions := s.questions.filter (fun q => q.quizId == quizId)
    let total := quizQuestions.length
    if answers.length ≠ total then
      (.error "Answers must cover all questions", s)
    else
      let score := answers.foldl
        (fun acc a => if answerCorrect quizQuestions a then acc + 1 else acc) 0
      (.ok ⟨score, total⟩, s)

/-! ## Helper lemmas -/

/-- The `let score = 0; forEach { if … score++ }` accumulation equals a
`countP` of the scoring condition. -/
lemma foldl_if_eq_countP {α : Type} (p : α → Bool) (l : List α) (n : Nat) :
    l.foldl (fun acc a => if p a then acc + 1 else acc) n = n + l.countP p := by
  induction l generalizing n with
  | nil => simp
  | cons a l ih =>
    simp only [List.foldl_cons, List.countP_cons, ih]
    by_cases h : p a
    · simp only [h, if_true, if_pos]
      omega
    · simp [h]

/-- On a quiz that exists, `submitAnswers` reduces to the length check and
the `countP` of the scoring condition over the quiz's filtered questions. -/
lemma submitAnswers_of_find (s : ServiceState) (quizId : String)
    (answers : List Answer) (quiz : Quiz)
    (h : s.quizzes.find? (fun q => q.id == quizId) = some quiz) :
    submitAnswers s quizId answers =
      (if answers.length ≠ (s.questions.filter (fun q => q.quizId == quizId)).length
        then .error "Answers must cover all questions"
        else .ok ⟨answers.countP
            (answerCorrect (s.questions.filter (fun q => q.quizId == quizId))),
          (s.questions.filter (fun q => q.quizId == quizId)).length⟩, s) := by
  unfold submitAnswers
  rw [h]
  simp only
  split
  · rfl
  · rw [foldl_if_eq_countP]
    simp

/-- The state component of `submitAnswers` is always the input state: the
function body builds no new state in any branch. -/
lemma submitAnswers_state (s : ServiceState) (quizId : String)
    (answers : List Answer) : (submitAnswers s quizId answers).2 = s := by
  unfold submitAnswers
  rcases h : s.quizzes.find? (fun q => q.id == quizId) with _ | quiz
  · rw [h]
  · rw [h]
    simp only
    split
    · rfl
    · rfl

/-- When the ids of a question list are pairwise distinct, the find-first
scoring condition of the code agrees with "some question of the list
matches the answer's questionId and holds its selectedOptionId correct". -/
lemma answerCorrect_eq_any (l : List Question)
    (hnd : (l.map Question.id).Nodup) (a : Answer) :
    answerCorrect l a =
      l.any (fun q => q.id == a.questionId &&
        q.correctOptionId == a.selectedOptionId) := by
  induction l with
  | nil => rfl
  | cons q l ih =>
    simp only [List.map_cons, List.nodup_cons] at hnd
    by_cases h : q.id == a.questionId
    · have hfind : (q :: l).find? (fun q' => q'.id == a.questionId) = some q :=
        List.find?_cons_of_pos l h
      have hqid : q.id = a.questionId := beq_iff_eq.mp h
      have htail : l.any (fun q' => q'.id == a.questionId &&
          q'.correctOptionId == a.selectedOptionId) = false := by
        rw [List.any_eq_false]
        intro q' hq'
        simp only [Bool.and_eq_true, beq_iff_eq, not_and]
        intro hid _
        apply hnd.1
        rw [hqid, ← hid]
        exact List.mem_map_of_mem Question.id hq'
      unfold answerCorrect
      rw [hfind, List.any_cons, htail, h]
      simp
    · have hfind : (q :: l).find? (fun q' => q'.id == a.questionId) =
          l.find? (fun q' => q'.id == a.questionId) := by
        simp [List.find?_cons_of_neg, h]
      unfold answerCorrect
      rw [hfind, List.any_cons]
      simp only [h, Bool.false_and, Bool.false_or]
      exact ih hnd.2

/-- `addQuestion` on an absent quiz throws before touching anything. -/
lemma addQuestion_of_no_quiz (s : ServiceState) (quizId text : String)
    (options : List Opt) (cid newId : String)
    (h : s.quizzes.find? (fun q => q.id == quizId) = none) :
    addQuestion s quizId text options cid newId = (.error "Quiz not found", s) := by
  unfold addQuestion
  rw [h]

/-- `addQuestion` with a `correctOptionId` matching no option throws before
touching anything. -/
lemma addQuestion_of_bad_option (s : ServiceState) (quizId text : String)
    (options : List Opt) (cid newId : String) (quiz : Quiz)
    (h1 : s.quizzes.find? (fun q => q.id == quizId) = some quiz)
    (h2 : options.find? (fun opt => opt.id == cid) = none) :
    addQuestion s quizId text options cid newId =
      (.error "Invalid correct option ID", s) := by
  unfold addQuestion
  rw [h1]
  dsimp only
  rw [h2]

/-- The success path of `addQuestion`: both lookups hit, the question is
pushed and its id recorded on the quiz. -/
lemma addQuestion_of_ok (s : ServiceState) (quizId text : String)
    (options : List Opt) (cid newId : String) (quiz : Quiz) (opt : Opt)
    (h1 : s.quizzes.find? (fun q => q.id == quizId) = some quiz)
    (h2 : options.find? (fun o => o.id == cid) = some opt) :
    addQuestion s quizId text options cid newId =
      (.ok ⟨newId, quizId, text, options, cid⟩,
        ⟨pushQuestionId s.quizzes quizId newId,
          s.questions ++ [⟨newId, quizId, text, options, cid⟩]⟩) := by
  unfold addQuestion
  rw [h1]
  dsimp only
  rw [h2]

/-- A successful quiz lookup splits the collection around the first match,
and `pushQuestionId` rewrites exactly that entry. -/
lemma find?_decomp_pushQuestionId (l : List Quiz) (quizId qid : String)
    (quiz : Quiz) (h : l.find? (fun q => q.id == quizId) = some quiz) :
    ∃ l₁ l₂, l = l₁ ++ quiz :: l₂ ∧
      (∀ q ∈ l₁, (q.id == quizId) = false) ∧
      pushQuestionId l quizId qid =
        l₁ ++ { quiz with questions := quiz.questions ++ [qid] } :: l₂ := by
  induction l with
  | nil => simp [List.find?] at h
  | cons q rest ih =>
    by_cases hq : q.id == quizId
    · rw [List.find?_cons_of_pos rest hq] at h
      obtain rfl : q = quiz := by injection h
      refine ⟨[], rest, rfl, by simp, ?_⟩
      unfold pushQuestionId
      rw [if_pos hq]
      rfl
    · rw [List.find?_cons_of_neg rest hq] at h
      obtain ⟨l₁, l₂, hl, hnotin, hpush⟩ := ih h
      refine ⟨q :: l₁, l₂, by rw [hl]; rfl, ?_, ?_⟩
      · intro q' hq'
        rcases List.mem_cons.mp hq' with rfl | hmem
        · exact Bool.eq_false_iff.mpr hq
        · exact hnotin q' hmem
      · unfold pushQuestionId
        rw [if_neg hq, hpush, List.cons_append]

/-! ## Reachable states

The service state evolves only through the five operations.  Generated
ids come from uuidv4; the collision-resistance of the generator is
modelled by freshness hypotheses on the generated id.  The transport
layer validates `title`, `text` and the shape of `options` before calling
the service (`QuizController`), so those caller-validated preconditions
appear as hypotheses on the corresponding steps. -/

/-- One service call, as observed from the state: the five operations of
`QuizService`.  The read-only operations (`getAllQuizzes`, `getQuestions`)
do not touch the state; `submitAnswers` returns its state component. -/
inductive Step : ServiceState → ServiceState → Prop where
  | create (s : ServiceState) (id title : String) (ht : title ≠ "")
      (hfresh : ∀ q ∈ s.quizzes, q.id ≠ id) :
      Step s (createQuiz s id title).2
  | addQ (s : ServiceState) (quizId text : String) (options : List Opt)
      (correctOptionId newId : String) (ht : text ≠ "")
      (hopts : 2 ≤ options.length)
      (hfresh : ∀ q ∈ s.questions, q.id ≠ newId) :
      Step s (addQuestion s quizId text options correctOptionId newId).2
  | getAll (s : ServiceState) : Step s s
  | getQs (s : ServiceState) (quizId : String) : Step s s
  | submit (s : ServiceState) (quizId : String) (answers : List Answer) :
      Step s (submitAnswers s quizId answers).2

/-- States reachable from the empty initial state through service calls. -/
def Reachable (s : ServiceState) : Prop :=
  Relation.ReflTransGen Step initialState s

/-- The structural invariant maintained by the service: quiz ids are
pairwise distinct, every question's `quizId` is the id of some quiz, and
every quiz's `questions` array lists exactly, in order, the ids of the
global question-collection entries whose `quizId` is the quiz's id. -/
def GoodState (s : ServiceState) : Prop :=
  (s.quizzes.map Quiz.id).Nodup ∧
  (∀ q ∈ s.questions, q.quizId ∈ s.quizzes.map Quiz.id) ∧
  (∀ quiz ∈ s.quizzes, quiz.questions =
    (s.questions.filter (fun q => q.quizId == quiz.id)).map Question.id)

lemma goodState_initial : GoodState initialState := by
  refine ⟨List.nodup_nil, ?_, ?_⟩ <;> simp [initialState]

/-- Filtering past an appended question whose `quizId` misses the id. -/
lemma filter_append_single_ne (questions : List Question) (newQ : Question)
    (qid : String) (h : (newQ.quizId == qid) = false) :
    (questions ++ [newQ]).filter (fun q => q.quizId == qid) =
      questions.filter (fun q => q.quizId == qid) := by
  rw [List.filter_append]
  simp [List.filter_cons, h]

/-- Every service call preserves the structural invariant. -/
lemma goodState_step {s s' : ServiceState} (h : Step s s') (hg : GoodState s) :
    GoodState s' := by
  obtain ⟨hnd, href, hqs⟩ := hg
  cases h with
  | create id title ht hfresh =>
    refine ⟨?_, ?_, ?_⟩
    · show ((s.quizzes ++ [(⟨id, title, []⟩ : Quiz)]).map Quiz.id).Nodup
      rw [List.map_append, List.nodup_append]
      refine ⟨hnd, List.nodup_singleton id, ?_⟩
      intro a ha
      obtain ⟨q, hq, rfl⟩ := List.mem_map.mp ha
      simp only [List.map_cons, List.map_nil, List.mem_singleton]
      exact hfresh q hq
    · intro q hq
      show q.quizId ∈ (s.quizzes ++ [(⟨id, title, []⟩ : Quiz)]).map Quiz.id
      rw [List.map_append]
      exact List.mem_append_left _ (href q hq)
    · intro quiz hquiz
      rcases List.mem_append.mp hquiz with hm | hm
      · exact hqs quiz hm
      · simp only [List.mem_singleton] at hm
        subst hm
        show ([] : List String) =
          (s.questions.filter (fun q => q.quizId == id)).map Question.id
        have hfilter : s.questions.filter (fun q => q.quizId == id) = [] := by
          rw [List.filter_eq_nil_iff]
          intro q hq
          obtain ⟨quiz', hquiz', hid⟩ := List.mem_map.mp (href q hq)
          simp only [beq_iff_eq]
          rw [← hid]
          exact fun hEq => hfresh quiz' hquiz' hEq
        rw [hfilter, List.map_nil]
  | addQ quizId text options cid newId ht hopts hfresh =>
    rcases h1 : s.quizzes.find? (fun q => q.id == quizId) with _ | quiz
    · rw [addQuestion_of_no_quiz s quizId text options cid newId h1]
      exact ⟨hnd, href, hqs⟩
    · rcases h2 : options.find? (fun o => o.id == cid) with _ | opt
      · rw [addQuestion_of_bad_option s quizId text options cid newId quiz h1 h2]
        exact ⟨hnd, href, hqs⟩
      · rw [addQuestion_of_ok s quizId text options cid newId quiz opt h1 h2]
        obtain ⟨l₁, l₂, hl, hnotin, hpush⟩ :=
          find?_decomp_pushQuestionId s.quizzes quizId newId quiz h1
        have hquizid : quiz.id = quizId := by simpa using List.find?_some h1
        have hquizmem : quiz ∈ s.quizzes := List.mem_of_find?_eq_some h1
        have hmapid : (pushQuestionId s.quizzes quizId newId).map Quiz.id =
            s.quizzes.map Quiz.id := by
          rw [hpush, hl]
          simp
        have hother : ∀ quiz' ∈ s.quizzes, quiz'.id ≠ quizId →
            quiz'.questions = ((s.questions ++
                [(⟨newId, quizId, text, options, cid⟩ : Question)]).filter
              (fun q => q.quizId == quiz'.id)).map Question.id := by
          intro quiz' hmem hne
          rw [filter_append_single_ne s.questions _ quiz'.id
            (beq_eq_false_iff_ne.mpr fun hEq => hne hEq.symm)]
          exact hqs quiz' hmem
        refine ⟨?_, ?_, ?_⟩
        · show ((pushQuestionId s.quizzes quizId newId).map Quiz.id).Nodup
          rw [hmapid]
          exact hnd
        · intro q hq
          show q.quizId ∈ (pushQuestionId s.quizzes quizId newId).map Quiz.id
          rw [hmapid]
          rcases List.mem_append.mp hq with hm | hm
          · exact href q hm
          · simp only [List.mem_singleton] at hm
            subst hm
            show quizId ∈ s.quizzes.map Quiz.id
            rw [← hquizid]
            exact List.mem_map_of_mem Quiz.id hquizmem
        · intro quiz' hquiz'
          rw [hpush] at hquiz'
          have hnd' : ((l₁ ++ quiz :: l₂).map Quiz.id).Nodup := by
            rw [← hl]
            exact hnd
          rcases List.mem_append.mp hquiz' with hm | hm
          · have hne : quiz'.id ≠ quizId := by
              have := hnotin quiz' hm
              exact beq_eq_false_iff_ne.mp this
            have hmemS : quiz' ∈ s.quizzes := by
              rw [hl]
              exact List.mem_append_left _ hm
            exact hother quiz' hmemS hne
          · rcases List.mem_cons.mp hm with rfl | hm₂
            · show quiz.questions ++ [newId] =
                (((s.questions ++ [(⟨newId, quizId, text, options, cid⟩ : Question)]).filter
                  (fun q => q.quizId == quiz.id)).map Question.id)
              have hfilterNew :
                  ([(⟨newId, quizId, text, options, cid⟩ : Question)].filter
                    (fun q => q.quizId == quiz.id)) =
                  [(⟨newId, quizId, text, options, cid⟩ : Question)] := by
                simp [List.filter_cons, hquizid]
              rw [List.filter_append, hfilterNew, List.map_append,
                ← hqs quiz hquizmem]
              rfl
            · have h3 : quiz.id ∉ l₂.map Quiz.id := by
                rw [List.map_append, List.nodup_append] at hnd'
                have := hnd'.2.1
                rw [List.map_cons, List.nodup_cons] at this
                exact this.1
              have hne : quiz'.id ≠ quizId := by
                intro hEq
                apply h3
                rw [hquizid, ← hEq]
                exact List.mem_map_of_mem Quiz.id hm₂
              have hmemS : quiz' ∈ s.quizzes := by
                rw [hl]
                exact List.mem_append_right _ (List.mem_cons_of_mem _ hm₂)
              exact hother quiz' hmemS hne
  | getAll => exact ⟨hnd, href, hqs⟩
  | getQs quizId => exact ⟨hnd, href, hqs⟩
  | submit quizId answers =>
    rw [submitAnswers_state]
    exact ⟨hnd, href, hqs⟩

/-- Reachable states satisfy the structural invariant. -/
lemma goodState_of_reachable {s : ServiceState} (h : Reachable s) :
    GoodState s := by
  induction h with
  | refl => exact goodState_initial
  | tail _ hstep ih => exact goodState_step hstep ih

/-- Service calls restricted to callers that, beyond the documented
preconditions, only ever pass option lists whose ids are pairwise
distinct. -/
inductive StepU : ServiceState → ServiceState → Prop where
  | create (s : ServiceState) (id title : String) (ht : title ≠ "")
      (hfresh : ∀ q ∈ s.quizzes, q.id ≠ id) :
      StepU s (createQuiz s id title).2
  | addQ (s : ServiceState) (quizId text : String) (options : List Opt)
      (correctOptionId newId : String) (ht : text ≠ "")
      (hopts : 2 ≤ options.length)
      (hoptnd : (options.map Opt.id).Nodup)
      (hfresh : ∀ q ∈ s.questions, q.id ≠ newId) :
      StepU s (addQuestion s quizId text options correctOptionId newId).2
  | getAll (s : ServiceState) : StepU s s
  | getQs (s : ServiceState) (quizId : String) : StepU s s
  | submit (s : ServiceState) (quizId : String) (answers : List Answer) :
      StepU s (submitAnswers s quizId answers).2

/-- States reachable when every `addQuestion` call carries duplicate-free
option ids. -/
def ReachableU (s : ServiceState) : Prop :=
  Relation.ReflTransGen StepU initialState s

/-- A `StepU` call preserves "every stored question has duplicate-free
option ids". -/
lemma optionIds_nodup_stepU {s s' : ServiceState} (h : StepU s s')
    (hg : ∀ q ∈ s.questions, (q.options.map Opt.id).Nodup) :
    ∀ q ∈ s'.questions, (q.options.map Opt.id).Nodup := by
  cases h with
  | create id title ht hfresh => exact hg
  | addQ quizId text options cid newId ht hopts hoptnd hfresh =>
    rcases h1 : s.quizzes.find? (fun q => q.id == quizId) with _ | quiz
    · rw [addQuestion_of_no_quiz s quizId text options cid newId h1]
      exact hg
    · rcases h2 : options.find? (fun o => o.id == cid) with _ | opt
      · rw [addQuestion_of_bad_option s quizId text options cid newId quiz h1 h2]
        exact hg
      · rw [addQuestion_of_ok s quizId text options cid newId quiz opt h1 h2]
        intro q hq
        rcases List.mem_append.mp hq with hm | hm
        · exact hg q hm
        · simp only [List.mem_singleton] at hm
          subst hm
          exact hoptnd
  | getAll => exact hg
  | getQs quizId => exact hg
  | submit quizId answers =>
    rw [submitAnswers_state]
    exact hg

/-! ## The claims -/

/-- C1: in a state whose question ids are pairwise distinct (the
data-model invariant on uuid-generated ids), when a quiz with id `quizId`
exists and `answers` has exactly as many entries as the quiz has
questions, `submitAnswers` succeeds with `total` the number of questions
whose `quizId` field matches and `score` the number of answers for which
some question of the quiz has that answer's `questionId` and holds its
`selectedOptionId` correct; an answer matching no question of the quiz
contributes 0 and raises no error. -/
theorem submitAnswers_success_scoring (s : ServiceState) (quizId : String)
    (answers : List Answer)
    (hq : (s.quizzes.find? (fun q => q.id == quizId)).isSome = true)
    (hnd : (s.questions.map Question.id).Nodup)
    (hlen : answers.length =
      (s.questions.filter (fun q => q.quizId == quizId)).length) :
    (submitAnswers s quizId answers).1 = .ok
      ⟨answers.countP (fun a =>
          (s.questions.filter (fun q => q.quizId == quizId)).any
            (fun q => q.id == a.questionId &&
              q.correctOptionId == a.selectedOptionId)),
        (s.questions.filter (fun q => q.quizId == quizId)).length⟩ := by
  obtain ⟨quiz, hfind⟩ := Option.isSome_iff_exists.mp hq
  rw [submitAnswers_of_find s quizId answers quiz hfind]
  show (if _ then _ else _) = _
  rw [if_neg (fun hne => hne hlen)]
  have hndf : ((s.questions.filter (fun q => q.quizId == quizId)).map
      Question.id).Nodup :=
    hnd.sublist ((List.filter_sublist s.questions).map Question.id)
  rw [funext (answerCorrect_eq_any
    (s.questions.filter (fun q => q.quizId == quizId)) hndf)]

theorem submitAnswers_success_scoring_witness :
    (submitAnswers ⟨[⟨"q1", "T", ["x1"]⟩],
        [⟨"x1", "q1", "t", [⟨"a", "3"⟩, ⟨"b", "4"⟩], "b"⟩]⟩ "q1"
        [⟨"x1", "b"⟩]).1 = .ok
      ⟨[(⟨"x1", "b"⟩ : Answer)].countP (fun a =>
          (([(⟨"x1", "q1", "t", [⟨"a", "3"⟩, ⟨"b", "4"⟩], "b"⟩ : Question)]).filter
              (fun q => q.quizId == "q1")).any
            (fun q => q.id == a.questionId &&
              q.correctOptionId == a.selectedOptionId)),
        (([(⟨"x1", "q1", "t", [⟨"a", "3"⟩, ⟨"b", "4"⟩], "b"⟩ : Question)]).filter
          (fun q => q.quizId == "q1")).length⟩ :=
  submitAnswers_success_scoring
    ⟨[⟨"q1", "T", ["x1"]⟩], [⟨"x1", "q1", "t", [⟨"a", "3"⟩, ⟨"b", "4"⟩], "b"⟩]⟩
    "q1" [⟨"x1", "b"⟩] (by decide) (by decide) (by decide)

/-- C2: on an existing quiz, `submitAnswers` fails with the
"Answers must cover all questions" validation error exactly when the
answers sequence's length differs from the quiz's question count; on an
empty quiz the empty answers sequence succeeds with `{score: 0, total: 0}`. -/
theorem submitAnswers_length_check (s : ServiceState) (quizId : String)
    (answers : List Answer)
    (hq : (s.quizzes.find? (fun q => q.id == quizId)).isSome = true) :
    ((submitAnswers s quizId answers).1 =
        .error "Answers must cover all questions" ↔
      answers.length ≠
        (s.questions.filter (fun q => q.quizId == quizId)).length) ∧
    ((s.questions.filter (fun q => q.quizId == quizId)).length = 0 →
      (submitAnswers s quizId []).1 = .ok ⟨0, 0⟩) := by
  obtain ⟨quiz, hfind⟩ := Option.isSome_iff_exists.mp hq
  constructor
  · rw [submitAnswers_of_find s quizId answers quiz hfind]
    show ((if _ then _ else _) = _) ↔ _
    constructor
    · intro h
      by_contra hcon
      rw [if_neg (fun hne => hne hcon)] at h
      exact absurd h (by simp)
    · intro h
      rw [if_pos h]
  · intro h0
    rw [submitAnswers_of_find s quizId [] quiz hfind]
    show (if _ then _ else _) = _
    rw [if_neg (by simp [h0])]
    simp [h0]

theorem submitAnswers_length_check_witness :
    (((submitAnswers ⟨[⟨"q1", "T", []⟩], []⟩ "q1" [⟨"x", "a"⟩]).1 =
        .error "Answers must cover all questions" ↔
      [(⟨"x", "a"⟩ : Answer)].length ≠
        (([] : List Question).filter (fun q => q.quizId == "q1")).length) ∧
    ((([] : List Question).filter (fun q => q.quizId == "q1")).length = 0 →
      (submitAnswers ⟨[⟨"q1", "T", []⟩], []⟩ "q1" []).1 = .ok ⟨0, 0⟩)) :=
  submitAnswers_length_check ⟨[⟨"q1", "T", []⟩], []⟩ "q1" [⟨"x", "a"⟩]
    (by decide)

/-- C3: on an existing quiz, `getQuestions` returns exactly the questions
whose `quizId` field matches, in the question collection's insertion
order, each projected to `{id, text, options}`; the projection type has no
`correctOptionId` field, so the correct answer never leaks. -/
theorem getQuestions_projection (s : ServiceState) (quizId : String)
    (hq : (s.quizzes.find? (fun q => q.id == quizId)).isSome = true) :
    getQuestions s quizId = .ok
      ((s.questions.filter (fun q => q.quizId == quizId)).map
        (fun q => ⟨q.id, q.text, q.options⟩)) := by
  obtain ⟨quiz, hfind⟩ := Option.isSome_iff_exists.mp hq
  unfold getQuestions
  rw [hfind]

theorem getQuestions_projection_witness :
    getQuestions ⟨[⟨"q1", "T", ["x1"]⟩],
        [⟨"x1", "q1", "t", [⟨"a", "3"⟩, ⟨"b", "4"⟩], "b"⟩]⟩ "q1" = .ok
      (([(⟨"x1", "q1", "t", [⟨"a", "3"⟩, ⟨"b", "4"⟩], "b"⟩ : Question)].filter
        (fun q => q.quizId == "q1")).map
        (fun q => ⟨q.id, q.text, q.options⟩)) :=
  getQuestions_projection
    ⟨[⟨"q1", "T", ["x1"]⟩], [⟨"x1", "q1", "t", [⟨"a", "3"⟩, ⟨"b", "4"⟩], "b"⟩]⟩
    "q1" (by decide)

/-- C4 (counterexample): in the empty state, `addQuestion` with a
`correctOptionId` matching none of the options fails with
"Quiz not found", not "Invalid correct option ID": the quiz lookup runs
first, so the claim's unconditional quantification over every state is
wrong when the quiz does not exist. -/
theorem addQuestion_notfound_precedes_invalidref :
    (addQuestion initialState "q1" "t" [⟨"a", "3"⟩, ⟨"b", "4"⟩] "c" "n1").1 =
        .error "Quiz not found" ∧
      (addQuestion initialState "q1" "t" [⟨"a", "3"⟩, ⟨"b", "4"⟩] "c" "n1").1 ≠
        .error "Invalid correct option ID" ∧
      ([(⟨"a", "3"⟩ : Opt), ⟨"b", "4"⟩].all (fun o => o.id != "c")) = true := by
  have h1 : (addQuestion initialState "q1" "t" [⟨"a", "3"⟩, ⟨"b", "4"⟩]
      "c" "n1").1 = .error "Quiz not found" := rfl
  refine ⟨h1, ?_, by decide⟩
  rw [h1]
  intro h
  exact absurd (Except.error.inj h) (by decide)

/-- C4 (amended): provided a quiz with id `quizId` exists, `addQuestion`
with a `correctOptionId` matching no option id fails with
"Invalid correct option ID" and leaves the state unchanged, regardless of
the other fields; when `correctOptionId` does match an option, the new
question (carrying the generated id) is appended to the question
collection and its id is appended to the owning (first matching) quiz's
`questions` array. -/
theorem addQuestion_validates_and_appends (s : ServiceState)
    (quizId text : String) (options : List Opt) (cid newId : String)
    (hq : (s.quizzes.find? (fun q => q.id == quizId)).isSome = true) :
    (options.all (fun o => o.id != cid) = true →
      addQuestion s quizId text options cid newId =
        (.error "Invalid correct option ID", s)) ∧
    (options.any (fun o => o.id == cid) = true →
      ((addQuestion s quizId text options cid newId).1 =
          .ok ⟨newId, quizId, text, options, cid⟩ ∧
        ((addQuestion s quizId text options cid newId).2).questions =
          s.questions ++ [⟨newId, quizId, text, options, cid⟩] ∧
        ∃ l₁ quiz l₂, s.quizzes = l₁ ++ quiz :: l₂ ∧
          (∀ q ∈ l₁, (q.id == quizId) = false) ∧ quiz.id = quizId ∧
          ((addQuestion s quizId text options cid newId).2).quizzes =
            l₁ ++ { quiz with questions := quiz.questions ++ [newId] } :: l₂)) := by
  obtain ⟨quiz, hfind⟩ := Option.isSome_iff_exists.mp hq
  constructor
  · intro hall
    have h2 : options.find? (fun o => o.id == cid) = none := by
      rw [List.find?_eq_none]
      intro o ho
      have := List.all_eq_true.mp hall o ho
      simpa using this
    exact addQuestion_of_bad_option s quizId text options cid newId quiz hfind h2
  · intro hany
    have h2 : (options.find? (fun o => o.id == cid)).isSome := by
      rw [List.find?_isSome]
      exact List.any_eq_true.mp hany
    obtain ⟨opt, hopt⟩ := Option.isSome_iff_exists.mp h2
    rw [addQuestion_of_ok s quizId text options cid newId quiz opt hfind hopt]
    refine ⟨rfl, rfl, ?_⟩
    obtain ⟨l₁, l₂, hl, hnotin, hpush⟩ :=
      find?_decomp_pushQuestionId s.quizzes quizId newId quiz hfind
    exact ⟨l₁, quiz, l₂, hl, hnotin, by simpa using List.find?_some hfind, hpush⟩

theorem addQuestion_validates_and_appends_witness :
    (([(⟨"a", "3"⟩ : Opt), ⟨"b", "4"⟩].all (fun o => o.id != "c") = true →
      addQuestion ⟨[⟨"q1", "T", []⟩], []⟩ "q1" "t" [⟨"a", "3"⟩, ⟨"b", "4"⟩]
          "c" "n1" =
        (.error "Invalid correct option ID", ⟨[⟨"q1", "T", []⟩], []⟩)) ∧
    ([(⟨"a", "3"⟩ : Opt), ⟨"b", "4"⟩].any (fun o => o.id == "c") = true →
      ((addQuestion ⟨[⟨"q1", "T", []⟩], []⟩ "q1" "t" [⟨"a", "3"⟩, ⟨"b", "4"⟩]
            "c" "n1").1 =
          .ok ⟨"n1", "q1", "t", [⟨"a", "3"⟩, ⟨"b", "4"⟩], "c"⟩ ∧
        ((addQuestion ⟨[⟨"q1", "T", []⟩], []⟩ "q1" "t" [⟨"a", "3"⟩, ⟨"b", "4"⟩]
            "c" "n1").2).questions =
          ([] : List Question) ++ [⟨"n1", "q1", "t", [⟨"a", "3"⟩, ⟨"b", "4"⟩], "c"⟩] ∧
        ∃ l₁ quiz l₂, [(⟨"q1", "T", []⟩ : Quiz)] = l₁ ++ quiz :: l₂ ∧
          (∀ q ∈ l₁, (q.id == "q1") = false) ∧ quiz.id = "q1" ∧
          ((addQuestion ⟨[⟨"q1", "T", []⟩], []⟩ "q1" "t" [⟨"a", "3"⟩, ⟨"b", "4"⟩]
              "c" "n1").2).quizzes =
            l₁ ++ { quiz with questions := quiz.questions ++ ["n1"] } :: l₂))) :=
  addQuestion_validates_and_appends ⟨[⟨"q1", "T", []⟩], []⟩ "q1" "t"
    [⟨"a", "3"⟩, ⟨"b", "4"⟩] "c" "n1" (by decide)

/-- C5: on a `quizId` carried by no quiz in the collection, both
`getQuestions` and `submitAnswers` (for every answers sequence) fail with
"Quiz not found", and `submitAnswers` returns the state untouched. -/
theorem missing_quiz_not_found (s : ServiceState) (quizId : String)
    (answers : List Answer)
    (h : s.quizzes.find? (fun q => q.id == quizId) = none) :
    getQuestions s quizId = .error "Quiz not found" ∧
    submitAnswers s quizId answers = (.error "Quiz not found", s) := by
  constructor
  · unfold getQuestions
    rw [h]
  · unfold submitAnswers
    rw [h]

theorem missing_quiz_not_found_witness :
    getQuestions initialState "nope" = .error "Quiz not found" ∧
    submitAnswers initialState "nope" [⟨"x", "a"⟩] =
      (.error "Quiz not found", initialState) :=
  missing_quiz_not_found initialState "nope" [⟨"x", "a"⟩] (by decide)

/-- C6: whenever `submitAnswers` succeeds, the returned result satisfies
`score ≤ total`. -/
theorem submitAnswers_score_le_total (s : ServiceState) (quizId : String)
    (answers : List Answer) (r : SubmitResult)
    (h : (submitAnswers s quizId answers).1 = .ok r) : r.score ≤ r.total := by
  rcases hfind : s.quizzes.find? (fun q => q.id == quizId) with _ | quiz
  · unfold submitAnswers at h
    rw [hfind] at h
    exact absurd h (by simp)
  · rw [submitAnswers_of_find s quizId answers quiz hfind] at h
    by_cases hlen : answers.length ≠
        (s.questions.filter (fun q => q.quizId == quizId)).length
    · rw [if_pos hlen] at h
      exact absurd h (by simp)
    · rw [if_neg hlen] at h
      injection h with h'
      subst h'
      show answers.countP _ ≤ _
      exact le_trans (List.countP_le_length _) (le_of_eq (not_ne_iff.mp hlen))

theorem submitAnswers_score_le_total_witness :
    (⟨0, 0⟩ : SubmitResult).score ≤ (⟨0, 0⟩ : SubmitResult).total :=
  submitAnswers_score_le_total ⟨[⟨"q1", "T", []⟩], []⟩ "q1" [] ⟨0, 0⟩ rfl

/-- C7: `submitAnswers` is order-independent in the answers sequence:
permuting `answers` yields the same outcome, error or `{score, total}`. -/
theorem submitAnswers_perm_invariant (s : ServiceState) (quizId : String)
    (answers answers' : List Answer) (hp : answers.Perm answers') :
    submitAnswers s quizId answers = submitAnswers s quizId answers' := by
  rcases hfind : s.quizzes.find? (fun q => q.id == quizId) with _ | quiz
  · unfold submitAnswers
    rw [hfind]
  · rw [submitAnswers_of_find s quizId answers quiz hfind,
      submitAnswers_of_find s quizId answers' quiz hfind,
      hp.length_eq, hp.countP_eq]

theorem submitAnswers_perm_invariant_witness :
    submitAnswers ⟨[⟨"q1", "T", ["x1"]⟩],
        [⟨"x1", "q1", "t", [⟨"a", "3"⟩, ⟨"b", "4"⟩], "b"⟩]⟩ "q1"
      [⟨"x1", "b"⟩, ⟨"zz", "a"⟩] =
    submitAnswers ⟨[⟨"q1", "T", ["x1"]⟩],
        [⟨"x1", "q1", "t", [⟨"a", "3"⟩, ⟨"b", "4"⟩], "b"⟩]⟩ "q1"
      [⟨"zz", "a"⟩, ⟨"x1", "b"⟩] :=
  submitAnswers_perm_invariant
    ⟨[⟨"q1", "T", ["x1"]⟩], [⟨"x1", "q1", "t", [⟨"a", "3"⟩, ⟨"b", "4"⟩], "b"⟩]⟩
    "q1" [⟨"x1", "b"⟩, ⟨"zz", "a"⟩] [⟨"zz", "a"⟩, ⟨"x1", "b"⟩]
    (List.Perm.swap (⟨"zz", "a"⟩ : Answer) ⟨"x1", "b"⟩ [])

/-- C8: `submitAnswers` is read-only: in every state and for every input,
succeeding or failing, it returns the two collections exactly as they
were. -/
theorem submitAnswers_no_side_effects (s : ServiceState) (quizId : String)
    (answers : List Answer) : (submitAnswers s quizId answers).2 = s :=
  submitAnswers_state s quizId answers

/-- C9 (counterexample): from the empty state, under only the documented
caller-validated preconditions (non-empty text, at least two options), an
`addQuestion` call whose two options share the id "a" succeeds, so a state
whose question collection holds a question with duplicate option ids is
reachable: neither the controller nor the service checks option-id
uniqueness. -/
theorem duplicate_option_ids_reachable :
    Reachable ⟨[⟨"q1", "T", ["x1"]⟩],
        [⟨"x1", "q1", "t", [⟨"a", "3"⟩, ⟨"a", "4"⟩], "a"⟩]⟩ ∧
      ∃ q ∈ (⟨[⟨"q1", "T", ["x1"]⟩],
          [⟨"x1", "q1", "t", [⟨"a", "3"⟩, ⟨"a", "4"⟩], "a"⟩]⟩ :
            ServiceState).questions,
        ¬ (q.options.map Opt.id).Nodup := by
  constructor
  · have h1 : Step initialState ⟨[⟨"q1", "T", []⟩], []⟩ := by
      have he : (createQuiz initialState "q1" "T").2 =
          ⟨[⟨"q1", "T", []⟩], []⟩ := rfl
      have hs := Step.create initialState "q1" "T" (by decide)
        (fun q hq => absurd hq (List.not_mem_nil q))
      rwa [he] at hs
    have h2 : Step ⟨[⟨"q1", "T", []⟩], []⟩
        ⟨[⟨"q1", "T", ["x1"]⟩],
          [⟨"x1", "q1", "t", [⟨"a", "3"⟩, ⟨"a", "4"⟩], "a"⟩]⟩ := by
      have he : (addQuestion ⟨[⟨"q1", "T", []⟩], []⟩ "q1" "t"
          [⟨"a", "3"⟩, ⟨"a", "4"⟩] "a" "x1").2 =
          ⟨[⟨"q1", "T", ["x1"]⟩],
            [⟨"x1", "q1", "t", [⟨"a", "3"⟩, ⟨"a", "4"⟩], "a"⟩]⟩ := by decide
      have hs := Step.addQ ⟨[⟨"q1", "T", []⟩], []⟩ "q1" "t"
        [⟨"a", "3"⟩, ⟨"a", "4"⟩] "a" "x1" (by decide) (by decide)
        (fun q hq => absurd hq (List.not_mem_nil q))
      rwa [he] at hs
    exact Relation.ReflTransGen.tail (Relation.ReflTransGen.single h1) h2
  · exact ⟨⟨"x1", "q1", "t", [⟨"a", "3"⟩, ⟨"a", "4"⟩], "a"⟩,
      List.mem_singleton_self _, by decide⟩

/-- C9 (amended): in every state reachable from the empty initial state via
the five operations when, in addition to the documented caller-validated
preconditions, every `addQuestion` call's options carry pairwise-distinct
ids, every stored question has pairwise-distinct option ids. -/
theorem reachableU_option_ids_nodup (s : ServiceState) (h : ReachableU s) :
    ∀ q ∈ s.questions, (q.options.map Opt.id).Nodup := by
  induction h with
  | refl => exact fun q hq => absurd hq (List.not_mem_nil q)
  | tail _ hstep ih => exact optionIds_nodup_stepU hstep ih

theorem reachableU_option_ids_nodup_witness :
    (((⟨"x1", "q1", "t", [⟨"a", "3"⟩, ⟨"b", "4"⟩], "b"⟩ :
        Question).options).map Opt.id).Nodup :=
  reachableU_option_ids_nodup
    ⟨[⟨"q1", "T", ["x1"]⟩], [⟨"x1", "q1", "t", [⟨"a", "3"⟩, ⟨"b", "4"⟩], "b"⟩]⟩
    (by
      have h1 : StepU initialState ⟨[⟨"q1", "T", []⟩], []⟩ := by
        have he : (createQuiz initialState "q1" "T").2 =
            ⟨[⟨"q1", "T", []⟩], []⟩ := rfl
        have hs := StepU.create initialState "q1" "T" (by decide)
          (fun q hq => absurd hq (List.not_mem_nil q))
        rwa [he] at hs
      have h2 : StepU ⟨[⟨"q1", "T", []⟩], []⟩
          ⟨[⟨"q1", "T", ["x1"]⟩],
            [⟨"x1", "q1", "t", [⟨"a", "3"⟩, ⟨"b", "4"⟩], "b"⟩]⟩ := by
        have he : (addQuestion ⟨[⟨"q1", "T", []⟩], []⟩ "q1" "t"
            [⟨"a", "3"⟩, ⟨"b", "4"⟩] "b" "x1").2 =
            ⟨[⟨"q1", "T", ["x1"]⟩],
              [⟨"x1", "q1", "t", [⟨"a", "3"⟩, ⟨"b", "4"⟩], "b"⟩]⟩ := by decide
        have hs := StepU.addQ ⟨[⟨"q1", "T", []⟩], []⟩ "q1" "t"
          [⟨"a", "3"⟩, ⟨"b", "4"⟩] "b" "x1" (by decide) (by decide) (by decide)
          (fun q hq => absurd hq (List.not_mem_nil q))
        rwa [he] at hs
      exact Relation.ReflTransGen.tail (Relation.ReflTransGen.single h1) h2)
    ⟨"x1", "q1", "t", [⟨"a", "3"⟩, ⟨"b", "4"⟩], "b"⟩
    (List.mem_singleton_self _)

/-- C10: in every reachable state, each quiz's `questions` array equals,
element for element and in order, the ids of the global question-collection
entries whose `quizId` is the quiz's id; hence the `total` computed by
`submitAnswers` from the global collection equals the length of the quiz's
own id list. -/
theorem quiz_questionIds_eq_filtered_ids (s : ServiceState)
    (h : Reachable s) :
    (∀ quiz ∈ s.quizzes, quiz.questions =
        (s.questions.filter (fun q => q.quizId == quiz.id)).map Question.id) ∧
    (∀ quiz ∈ s.quizzes,
        (s.questions.filter (fun q => q.quizId == quiz.id)).length =
          quiz.questions.length) := by
  have hg := goodState_of_reachable h
  refine ⟨hg.2.2, fun quiz hquiz => ?_⟩
  rw [hg.2.2 quiz hquiz, List.length_map]

theorem quiz_questionIds_eq_filtered_ids_witness :
    (⟨"q1", "T", ["x1"]⟩ : Quiz).questions =
        (([(⟨"x1", "q1", "t", [⟨"a", "3"⟩, ⟨"b", "4"⟩], "b"⟩ : Question)]).filter
          (fun q => q.quizId == (⟨"q1", "T", ["x1"]⟩ : Quiz).id)).map
          Question.id ∧
      (([(⟨"x1", "q1", "t", [⟨"a", "3"⟩, ⟨"b", "4"⟩], "b"⟩ : Question)]).filter
          (fun q => q.quizId == (⟨"q1", "T", ["x1"]⟩ : Quiz).id)).length =
        (⟨"q1", "T", ["x1"]⟩ : Quiz).questions.length :=
  have hreach : Reachable ⟨[⟨"q1", "T", ["x1"]⟩],
      [⟨"x1", "q1", "t", [⟨"a", "3"⟩, ⟨"b", "4"⟩], "b"⟩]⟩ :=
    (by
      have h1 : Step initialState ⟨[⟨"q1", "T", []⟩], []⟩ := by
        have he : (createQuiz initialState "q1" "T").2 =
            ⟨[⟨"q1", "T", []⟩], []⟩ := rfl
        have hs := Step.create initialState "q1" "T" (by decide)
          (fun q hq => absurd hq (List.not_mem_nil q))
        rwa [he] at hs
      have h2 : Step ⟨[⟨"q1", "T", []⟩], []⟩
          ⟨[⟨"q1", "T", ["x1"]⟩],
            [⟨"x1", "q1", "t", [⟨"a", "3"⟩, ⟨"b", "4"⟩], "b"⟩]⟩ := by
        have he : (addQuestion ⟨[⟨"q1", "T", []⟩], []⟩ "q1" "t"
            [⟨"a", "3"⟩, ⟨"b", "4"⟩] "b" "x1").2 =
            ⟨[⟨"q1", "T", ["x1"]⟩],
              [⟨"x1", "q1", "t", [⟨"a", "3"⟩, ⟨"b", "4"⟩], "b"⟩]⟩ := by decide
        have hs := Step.addQ ⟨[⟨"q1", "T", []⟩], []⟩ "q1" "t"
          [⟨"a", "3"⟩, ⟨"b", "4"⟩] "b" "x1" (by decide) (by decide)
          (fun q hq => absurd hq (List.not_mem_nil q))
        rwa [he] at hs
      exact Relation.ReflTransGen.tail (Relation.ReflTransGen.single h1) h2)
  ⟨(quiz_questionIds_eq_filtered_ids
      ⟨[⟨"q1", "T", ["x1"]⟩], [⟨"x1", "q1", "t", [⟨"a", "3"⟩, ⟨"b", "4"⟩], "b"⟩]⟩
      hreach).1 ⟨"q1", "T", ["x1"]⟩ (List.mem_singleton_self _),
    (quiz_questionIds_eq_filtered_ids
      ⟨[⟨"q1", "T", ["x1"]⟩], [⟨"x1", "q1", "t", [⟨"a", "3"⟩, ⟨"b", "4"⟩], "b"⟩]⟩
      hreach).2 ⟨"q1", "T", ["x1"]⟩ (List.mem_singleton_self _)⟩

end QuizApp
